import Mathlib

/-!
Verification of the Arkiv data-layer client facade of the SkillChain
repository.  The repository ships the TypeScript type declarations
(`sdk/js/src/types.ts`) and the unit tests of the client
(`arkiv-client.test.ts`), while the client implementation file
`arkiv-client.ts` itself is not part of the provided sources; the
operational definitions below are therefore modelled from the design
specification, staying as close as possible to its words and to the
shapes exercised by the tests.  Payload bytes are modelled as `List Char`
(the UTF-8 decode step of the spec is the identity at this level), and
machine-level JSON values are modelled by the `Json` inductive below.
-/

/-! ## JSON values (PayloadCodec data model) -/

mutual
/-- Modelled from the spec: the "arbitrary structured value" payloads that
the PayloadCodec JSON-serializes (`arkiv-client.ts` / `jsonToPayload` are
not in the provided sources). -/
inductive Json where
| null : Json
| bool : Bool → Json
| num : Int → Json
| str : String → Json
| arr : JsonList → Json
| obj : JsonObj → Json

/-- List of JSON values (elements of a JSON array). -/
inductive JsonList where
| nil : JsonList
| cons : Json → JsonList → JsonList

/-- List of key/value members of a JSON object. -/
inductive JsonObj where
| nil : JsonObj
| cons : String → Json → JsonObj → JsonObj
end

/-- The double-quote character, written via its code point. -/
def quoteChar : Char := Char.ofNat 34

/-- The backslash character, written via its code point. -/
def backslashChar : Char := Char.ofNat 92

/-- The opening curly brace character, written via its code point. -/
def lbraceChar : Char := Char.ofNat 123

/-- The closing curly brace character, written via its code point. -/
def rbraceChar : Char := Char.ofNat 125

/-- Decimal digit character for a digit value below ten. -/
def digitChar (d : Nat) : Char :=
  if d = 0 then '0' else if d = 1 then '1' else if d = 2 then '2'
  else if d = 3 then '3' else if d = 4 then '4' else if d = 5 then '5'
  else if d = 6 then '6' else if d = 7 then '7' else if d = 8 then '8'
  else '9'

/-- Decimal digit characters of a natural number, most significant first. -/
def natChars (n : Nat) : List Char :=
  if _h : n < 10 then [digitChar n]
  else natChars (n / 10) ++ [digitChar (n % 10)]
decreasing_by
  exact Nat.div_lt_self (by omega) (by omega)

/-- Decimal representation of an integer, with a leading minus sign when
negative. -/
def intChars (i : Int) : List Char :=
  if i < 0 then '-' :: natChars i.natAbs else natChars i.natAbs

/-- JSON string escaping of a single character: the double quote and the
backslash are escaped with a backslash, every other character is emitted
verbatim. -/
def escapeChar (c : Char) : List Char :=
  if c = quoteChar then [backslashChar, quoteChar]
  else if c = backslashChar then [backslashChar, backslashChar]
  else [c]

/-- JSON text of a string literal: quoted and escaped. -/
def encodeString (s : String) : List Char :=
  quoteChar :: ((s.data.map escapeChar).flatten ++ [quoteChar])

mutual
/-- Modelled from the spec: "Encode: JSON-serialize the payload value to
bytes before transport" (PayloadCodec, section 4.5; the SDK helper
`jsonToPayload` is not in the provided sources). -/
def encodeJson : Json → List Char
| .null => ['n', 'u', 'l', 'l']
| .bool b => if b then ['t', 'r', 'u', 'e'] else ['f', 'a', 'l', 's', 'e']
| .num i => intChars i
| .str s => encodeString s
| .arr xs => '[' :: (encodeList xs ++ [']'])
| .obj kvs => lbraceChar :: (encodeObj kvs ++ [rbraceChar])

/-- JSON text of the comma-separated elements of an array. -/
def encodeList : JsonList → List Char
| .nil => []
| .cons v .nil => encodeJson v
| .cons v (.cons v2 tl) => encodeJson v ++ (',' :: encodeList (.cons v2 tl))

/-- JSON text of the comma-separated members of an object. -/
def encodeObj : JsonObj → List Char
| .nil => []
| .cons k v .nil => encodeString k ++ (':' :: encodeJson v)
| .cons k v (.cons k2 v2 tl) =>
    encodeString k ++ (':' :: (encodeJson v ++ (',' :: encodeObj (.cons k2 v2 tl))))
end

/-- Whether a character is a decimal digit. -/
def isDigitCh (c : Char) : Bool := decide (48 ≤ c.toNat ∧ c.toNat ≤ 57)

/-- Numeric value of a decimal digit character. -/
def digitVal (c : Char) : Nat := c.toNat - 48

/-- Whether the first character of the input, if any, is a decimal digit. -/
def headDigit : List Char → Bool
| [] => false
| c :: _ => isDigitCh c

/-- Splits a maximal run of leading decimal digits off the input. -/
def takeDigits : List Char → List Nat × List Char
| [] => ([], [])
| c :: cs =>
  if isDigitCh c then (digitVal c :: (takeDigits cs).1, (takeDigits cs).2)
  else ([], c :: cs)

/-- Value of a big-endian list of decimal digits. -/
def digitsVal (ds : List Nat) : Nat := ds.foldl (fun a d => a * 10 + d) 0

/-- Parses a nonempty run of decimal digits into a natural number. -/
def parseNat (s : List Char) : Option (Nat × List Char) :=
  if (takeDigits s).1 = [] then none
  else some (digitsVal (takeDigits s).1, (takeDigits s).2)

/-- Parses the body of a JSON string literal after the opening quote, up
to and including the closing quote; a backslash escapes the following
character. -/
def parseStrBody : List Char → Option (List Char × List Char)
| [] => none
| c :: cs =>
  if c = quoteChar then some ([], cs)
  else if c = backslashChar then
    match cs with
    | [] => none
    | d :: ds =>
      match parseStrBody ds with
      | some p => some (d :: p.1, p.2)
      | none => none
  else
    match parseStrBody cs with
    | some p => some (c :: p.1, p.2)
    | none => none

mutual
/-- Modelled from the spec: "Decode: when content type indicates JSON (or
by default), UTF-8 decode bytes then JSON-parse" — the recursive-descent
value parser, fuel-indexed for termination. -/
def parseVal : Nat → List Char → Option (Json × List Char)
| 0, _ => none
| _ + 1, [] => none
| fuel + 1, c :: cs =>
  if c = 'n' then
    match cs with
    | 'u' :: 'l' :: 'l' :: rest => some (.null, rest)
    | _ => none
  else if c = 't' then
    match cs with
    | 'r' :: 'u' :: 'e' :: rest => some (.bool true, rest)
    | _ => none
  else if c = 'f' then
    match cs with
    | 'a' :: 'l' :: 's' :: 'e' :: rest => some (.bool false, rest)
    | _ => none
  else if c = quoteChar then
    match parseStrBody cs with
    | some p => some (.str (String.mk p.1), p.2)
    | none => none
  else if c = '[' then
    match parseElems fuel cs with
    | some p => some (.arr p.1, p.2)
    | none => none
  else if c = lbraceChar then
    match parseMembers fuel cs with
    | some p => some (.obj p.1, p.2)
    | none => none
  else if c = '-' then
    match parseNat cs with
    | some p => some (.num (-(p.1 : Int)), p.2)
    | none => none
  else if isDigitCh c then
    match parseNat (c :: cs) with
    | some p => some (.num (p.1 : Int), p.2)
    | none => none
  else none

/-- Parses the elements of a JSON array after the opening bracket, up to
and including the closing bracket. -/
def parseElems : Nat → List Char → Option (JsonList × List Char)
| 0, _ => none
| _ + 1, [] => none
| fuel + 1, c :: cs =>
  if c = ']' then some (.nil, cs)
  else
    match parseVal fuel (c :: cs) with
    | some p =>
      match p.2 with
      | [] => none
      | c2 :: rest2 =>
        if c2 = ',' then
          match parseElems fuel rest2 with
          | some q => some (.cons p.1 q.1, q.2)
          | none => none
        else if c2 = ']' then some (.cons p.1 .nil, rest2)
        else none
    | none => none

/-- Parses the members of a JSON object after the opening brace, up to
and including the closing brace. -/
def parseMembers : Nat → List Char → Option (JsonObj × List Char)
| 0, _ => none
| _ + 1, [] => none
| fuel + 1, c :: cs =>
  if c = rbraceChar then some (.nil, cs)
  else if c = quoteChar then
    match parseStrBody cs with
    | some kp =>
      match kp.2 with
      | [] => none
      | c1 :: rest1 =>
        if c1 = ':' then
          match parseVal fuel rest1 with
          | some p =>
            match p.2 with
            | [] => none
            | c2 :: rest2 =>
              if c2 = ',' then
                match parseMembers fuel rest2 with
                | some q => some (.cons (String.mk kp.1) p.1 q.1, q.2)
                | none => none
              else if c2 = rbraceChar then
                some (.cons (String.mk kp.1) p.1 .nil, rest2)
              else none
          | none => none
        else none
    | none => none
  else none
end

mutual
/-- Fuel sufficient for `parseVal` to parse the encoding of a value. -/
def needV : Json → Nat
| .null => 1
| .bool _ => 1
| .num _ => 1
| .str _ => 1
| .arr xs => 1 + needL xs
| .obj kvs => 1 + needO kvs

/-- Fuel sufficient for `parseElems` to parse an encoded element list. -/
def needL : JsonList → Nat
| .nil => 1
| .cons v tl => 1 + needV v + needL tl

/-- Fuel sufficient for `parseMembers` to parse an encoded member list. -/
def needO : JsonObj → Nat
| .nil => 1
| .cons _ v tl => 1 + needV v + needO tl
end

/-- Parses a complete JSON document: the whole input must be consumed. -/
def parseJson (s : List Char) : Option Json :=
  match parseVal (2 * s.length + 2) s with
  | some (v, []) => some v
  | _ => none

/-- Result of decoding a payload: either a parsed JSON value, or — on
parse failure or a non-JSON content type — the raw decoded string. -/
inductive Decoded where
| json : Json → Decoded
| raw : String → Decoded

/-- The default content type of the client. -/
def jsonContentType : String := "application/json"

/-- Modelled from the spec: decode payload bytes; "when content type
indicates JSON (or by default), UTF-8 decode bytes then JSON-parse; on
parse failure, surface the raw decoded string rather than throwing"
(PayloadCodec, section 4.5; `arkiv-client.ts` is not in the provided
sources). -/
def decodePayload (contentType : Option String) (bytes : List Char) : Decoded :=
  if contentType.getD jsonContentType = jsonContentType then
    match parseJson bytes with
    | some v => .json v
    | none => .raw (String.mk bytes)
  else .raw (String.mk bytes)

/-! ## Data model of the client (from `sdk/js/src/types.ts`) -/

/-- Construction configuration (`ArkivConfig` in `types.ts`): optional
private key, RPC URL and WebSocket URL. -/
structure ArkivConfig where
  privateKey : Option String := none
  rpcUrl : Option String := none
  wsUrl : Option String := none

/-- Entity attribute (`ArkivAttribute` in `types.ts`). -/
structure ArkivAttribute where
  key : String
  value : String
deriving DecidableEq

/-- Filter operator of `ArkivQueryFilter.operator` in `types.ts`. -/
inductive FilterOp where
| eq | ne | neq | gt | lt | gte | lte
deriving DecidableEq

/-- Query filter (`ArkivQueryFilter` in `types.ts`); the operator is
optional and defaults to `eq`. -/
structure ArkivQueryFilter where
  key : String
  value : String
  operator : Option FilterOp := none
deriving DecidableEq

/-- Query options (`ArkivQueryOptions` in `types.ts`). -/
structure ArkivQueryOptions where
  filters : Option (List ArkivQueryFilter) := none
  withAttributes : Option Bool := none
  withPayload : Option Bool := none
  limit : Option Nat := none

/-- Creation options (`CreateArkivEntityOptions` in `types.ts`). -/
structure CreateArkivEntityOptions where
  payload : Json
  contentType : Option String := none
  attributes : Option (List ArkivAttribute) := none
  expiresInMinutes : Option Nat := none

/-- Update options (`UpdateArkivEntityOptions` in `types.ts`). -/
structure UpdateArkivEntityOptions where
  entityKey : String
  payload : Json
  attributes : Option (List ArkivAttribute) := none
  expiresInMinutes : Option Nat := none

/-- Write result (`ArkivCreateResult` in `types.ts`): the discriminated
result of every write operation. -/
structure ArkivCreateResult where
  success : Bool
  entityKey : Option String := none
  txHash : Option String := none
  error : Option String := none
deriving DecidableEq

/-- Decoded entity (`ArkivEntity` in `types.ts`): the normalized shape
returned by the read path; the payload, when present, has been run
through the payload codec. -/
structure ArkivEntity where
  entityKey : String
  payload : Option Decoded
  contentType : String
  attributes : List ArkivAttribute
  expiresAt : Option Nat
  createdAt : Nat

/-! ## Collaborator boundary (section 6 of the spec, mirrored by the
mocks of `arkiv-client.test.ts`) -/

/-- Raw entity as delivered by the network store before normalization:
payload is raw bytes, as in the `fetch`/`getEntity` mocks of the test
file. -/
structure RawEntity where
  entityKey : String
  payload : Option (List Char)
  contentType : String
  attributes : List ArkivAttribute
  expiresAt : Option Nat
  createdAt : Nat

/-- Response of the write handle's `createEntity`, per the test mock:
`{entityKey, txHash}`. -/
structure CreateResponse where
  entityKey : String
  txHash : String

/-- Response of the write handle's `updateEntity`/`deleteEntity`, per the
test mock: only `{txHash}`. -/
structure TxResponse where
  txHash : String

/-- Request submitted to the write handle on create. -/
structure CreateRequest where
  payload : List Char
  contentType : String
  attributes : List ArkivAttribute
  expiresAt : Option Nat
deriving DecidableEq

/-- Request submitted to the write handle on update. -/
structure UpdateRequest where
  entityKey : String
  payload : List Char
  contentType : String
  attributes : List ArkivAttribute
  expiresAt : Option Nat
deriving DecidableEq

/-- The write-capable handle (wallet client): each operation either
returns its response or throws a transport failure, modelled as
`Except String`. -/
structure WalletClient where
  createEntity : CreateRequest → Except String CreateResponse
  updateEntity : UpdateRequest → Except String TxResponse
  deleteEntity : String → Except String TxResponse

/-- One network call issued through the write handle; write operations
also return the list of calls they issued, so that "no network call
attempted" is statable. -/
inductive ArkivCall where
| create : CreateRequest → ArkivCall
| update : UpdateRequest → ArkivCall
| delete : String → ArkivCall
deriving DecidableEq

/-- State of the chained query builder of the underlying SDK
(`buildQuery().where(...).withAttributes(...).withPayload(...).limit(...)`
in the test mock), accumulated by the chaining calls. -/
structure QueryBuilder where
  filters : List (String × String × FilterOp) := []
  includeAttributes : Bool := false
  includePayload : Bool := false
  limitN : Option Nat := none
deriving DecidableEq

/-- Chained `where` call: appends one filter predicate. -/
def QueryBuilder.whereFilter (b : QueryBuilder) (f : String × String × FilterOp) :
    QueryBuilder :=
  { b with filters := b.filters ++ [f] }

/-- Chained `withAttributes` call. -/
def QueryBuilder.withAttributes (b : QueryBuilder) (v : Bool) : QueryBuilder :=
  { b with includeAttributes := v }

/-- Chained `withPayload` call. -/
def QueryBuilder.withPayload (b : QueryBuilder) (v : Bool) : QueryBuilder :=
  { b with includePayload := v }

/-- Chained `limit` call. -/
def QueryBuilder.limit (b : QueryBuilder) (n : Nat) : QueryBuilder :=
  { b with limitN := some n }

/-- One page of a query result, per the collaborator boundary: the
entities of this page, the pagination flag, and the further pages the
cursor would yield (never consulted by the client). -/
structure FetchPage where
  entities : List RawEntity
  hasNextPage : Bool
  nextPages : List (List RawEntity)

/-- The read-capable handle (public client): terminal fetch of a built
query, and single-key fetch; reads propagate transport errors. -/
structure PublicClient where
  fetch : QueryBuilder → Except String FetchPage
  getEntity : String → Except String (Option RawEntity)

/-! ## The client facade (modelled from the spec) -/

/-- Modelled from the spec: the fixed capability-error message of the
write path ("Wallet client not initialized"), as asserted by the tests. -/
def walletNotInitializedMsg : String := "Wallet client not initialized"

/-- Modelled from the spec: `ExpirationTime.fromMinutes`, per the SDK
utils mock of the test file (`minutes * 60 * 1000`). -/
def expirationFromMinutes (m : Nat) : Nat := m * 60 * 1000

/-- The constructed facade: a write handle only when a credential was
supplied, a read handle always. -/
structure ArkivClient where
  walletClient : Option WalletClient
  publicClient : PublicClient

/-- Modelled from the spec: construction of the facade (`ClientFactory`,
section 4.2) — "produce a write handle iff a credential was supplied;
otherwise the write handle is absent"; the read handle is always built.
The ambient transports stand for the external SDK factories. -/
def mkArkivClient (cfg : ArkivConfig) (wallet : WalletClient)
    (pub : PublicClient) : ArkivClient :=
  { walletClient := match cfg.privateKey with
      | some _ => some wallet
      | none => none,
    publicClient := pub }

/-- The request dispatched by `createEntity`: encoded payload, resolved
content type (default `application/json`), attributes, absolute
expiration. -/
def createReq (opts : CreateArkivEntityOptions) : CreateRequest :=
  { payload := encodeJson opts.payload,
    contentType := opts.contentType.getD jsonContentType,
    attributes := opts.attributes.getD [],
    expiresAt := opts.expiresInMinutes.map expirationFromMinutes }

/-- The request dispatched by `updateEntity`. -/
def updateReq (opts : UpdateArkivEntityOptions) : UpdateRequest :=
  { entityKey := opts.entityKey,
    payload := encodeJson opts.payload,
    contentType := jsonContentType,
    attributes := opts.attributes.getD [],
    expiresAt := opts.expiresInMinutes.map expirationFromMinutes }

/-- Modelled from the spec: `createEntity` (EntityWriter, section 4.3) —
validate write-handle presence first and fail fast without a network
call; otherwise encode, dispatch, and normalize success or transport
failure into the discriminated result.  Returns the result together with
the list of network calls issued. -/
def ArkivClient.createEntity (c : ArkivClient) (opts : CreateArkivEntityOptions) :
    ArkivCreateResult × List ArkivCall :=
  match c.walletClient with
  | none => ({ success := false, error := some walletNotInitializedMsg }, [])
  | some w =>
    match w.createEntity (createReq opts) with
    | .ok resp =>
      ({ success := true, entityKey := some resp.entityKey,
         txHash := some resp.txHash }, [.create (createReq opts)])
    | .error msg =>
      ({ success := false, error := some msg }, [.create (createReq opts)])

/-- Modelled from the spec: `updateEntity` (EntityWriter, section 4.3) —
same gating and normalization as create, targeting an existing
`entityKey`; the success result carries the caller-supplied key, since
the transport response carries only a transaction hash. -/
def ArkivClient.updateEntity (c : ArkivClient) (opts : UpdateArkivEntityOptions) :
    ArkivCreateResult × List ArkivCall :=
  match c.walletClient with
  | none => ({ success := false, error := some walletNotInitializedMsg }, [])
  | some w =>
    match w.updateEntity (updateReq opts) with
    | .ok resp =>
      ({ success := true, entityKey := some opts.entityKey,
         txHash := some resp.txHash }, [.update (updateReq opts)])
    | .error msg =>
      ({ success := false, error := some msg }, [.update (updateReq opts)])

/-- Modelled from the spec: `deleteEntity` (EntityWriter, section 4.3) —
no payload; gated on the write handle; the success result carries the
caller-supplied key and the transport's transaction hash. -/
def ArkivClient.deleteEntity (c : ArkivClient) (entityKey : String) :
    ArkivCreateResult × List ArkivCall :=
  match c.walletClient with
  | none => ({ success := false, error := some walletNotInitializedMsg }, [])
  | some w =>
    match w.deleteEntity entityKey with
    | .ok resp =>
      ({ success := true, entityKey := some entityKey,
         txHash := some resp.txHash }, [.delete entityKey])
    | .error msg =>
      ({ success := false, error := some msg }, [.delete entityKey])

/-- Normalization of a raw network entity into the domain entity: the
payload bytes are decoded by the payload codec under the entity's
content type. -/
def decodeRawEntity (r : RawEntity) : ArkivEntity :=
  { entityKey := r.entityKey,
    payload := r.payload.map (decodePayload (some r.contentType)),
    contentType := r.contentType,
    attributes := r.attributes,
    expiresAt := r.expiresAt,
    createdAt := r.createdAt }

/-- Translation of one caller filter into the builder's predicate:
key and value are passed through unmodified, the operator defaults to
`eq` when omitted. -/
def applyFilter (f : ArkivQueryFilter) : String × String × FilterOp :=
  (f.key, f.value, f.operator.getD .eq)

/-- The empty query options value (absent options). -/
def emptyQueryOptions : ArkivQueryOptions := {}

/-- Modelled from the spec: `query` builds its filter chain from
`options.filters` by chained `where` calls in caller order, then applies
the inclusion flags and, when given, the limit (QueryEngine, section
4.4). -/
def buildChain (opts : Option ArkivQueryOptions) : QueryBuilder :=
  let o := opts.getD emptyQueryOptions
  let b := (o.filters.getD []).foldl
    (fun (b : QueryBuilder) f => b.whereFilter (applyFilter f)) ({} : QueryBuilder)
  let b := b.withAttributes (o.withAttributes.getD false)
  let b := b.withPayload (o.withPayload.getD false)
  match o.limit with
  | some n => b.limit n
  | none => b

/-- Modelled from the spec: `query` (QueryEngine, section 4.4) — build
the chain, execute the terminal fetch once, decode the entities of the
first page only (no auto-pagination), and propagate transport errors.
Returns the outcome together with the list of fetches executed. -/
def ArkivClient.query (c : ArkivClient) (opts : Option ArkivQueryOptions) :
    Except String (List ArkivEntity) × List QueryBuilder :=
  match c.publicClient.fetch (buildChain opts) with
  | .ok page => (.ok (page.entities.map decodeRawEntity), [buildChain opts])
  | .error e => (.error e, [buildChain opts])

/-- Modelled from the spec: `getEntity` (QueryEngine, section 4.4) —
single-key fetch returning the decoded entity, absence on not-found, and
propagating hard transport errors. -/
def ArkivClient.getEntity (c : ArkivClient) (entityKey : String) :
    Except String (Option ArkivEntity) :=
  match c.publicClient.getEntity entityKey with
  | .ok (some r) => .ok (some (decodeRawEntity r))
  | .ok none => .ok none
  | .error e => .error e

/-! ## Subscription channel (modelled from the spec) -/

/-- One event on the subscription timeline: either the store reports a
newly created entity, or the caller invokes the unsubscribe function. -/
inductive SubEvent where
| created : RawEntity → SubEvent
| unsub : SubEvent

/-- Modelled from the spec: the cancellable push channel behind
`subscribe` (QueryEngine, section 4.4) — while active, each created
entity is decoded and delivered to the callback; the unsubscribe event
deactivates the channel; once inactive it never re-activates. -/
def runSubscription (active : Bool) : List SubEvent → List ArkivEntity
| [] => []
| .created e :: rest =>
  if active then decodeRawEntity e :: runSubscription active rest
  else runSubscription active rest
| .unsub :: rest => runSubscription false rest

/-- The callback invocations of a subscription started in the active
state, over a given event timeline. -/
def subscribeCallbacks (events : List SubEvent) : List ArkivEntity :=
  runSubscription true events

/-! ## Concrete fixtures (mirroring the test mocks) -/

/-- The wallet-client mock of the test file: create returns a fixed
entity key and transaction hash, update and delete return only the
transaction hash. -/
def mockWallet : WalletClient :=
  { createEntity := fun _ => .ok ⟨"0x1234567890abcdef", "0xabcdef1234567890"⟩,
    updateEntity := fun _ => .ok ⟨"0xabcdef1234567890"⟩,
    deleteEntity := fun _ => .ok ⟨"0xabcdef1234567890"⟩ }

/-- A wallet client whose every operation throws the given transport
failure. -/
def failingWallet (msg : String) : WalletClient :=
  { createEntity := fun _ => .error msg,
    updateEntity := fun _ => .error msg,
    deleteEntity := fun _ => .error msg }

/-- The raw entity served by the public-client mocks of the test file. -/
def mockRawEntity : RawEntity :=
  { entityKey := "0x1234567890abcdef",
    payload := some (encodeJson (.obj (.cons "name" (.str "Test User") .nil))),
    contentType := jsonContentType,
    attributes := [⟨"type", "profile"⟩],
    expiresAt := none,
    createdAt := 0 }

/-- The public-client mock of the test file: fetch returns a single page
with one entity and no next page; getEntity returns the same entity. -/
def mockPublic : PublicClient :=
  { fetch := fun _ => .ok ⟨[mockRawEntity], false, []⟩,
    getEntity := fun _ => .ok (some mockRawEntity) }

/-- A read-write configuration with the test's private key. -/
def rwConfig : ArkivConfig :=
  { privateKey := some "0x1234567890abcdef1234567890abcdef1234567890abcdef1234567890abcdef" }

/-- A read-only configuration (no credential). -/
def roConfig : ArkivConfig := {}

/-! ## Codec lemmas -/

theorem isDigitCh_digitChar (d : Nat) : isDigitCh (digitChar d) = true := by
  unfold digitChar
  split_ifs <;> decide

theorem digitVal_digitChar (d : Nat) (h : d < 10) :
    digitVal (digitChar d) = d := by
  interval_cases d <;> decide

theorem natChars_ne_nil (n : Nat) : natChars n ≠ [] := by
  rw [natChars]
  split <;> simp

theorem natChars_digits (n : Nat) : ∀ c ∈ natChars n, isDigitCh c = true := by
  induction n using Nat.strong_induction_on with
  | _ n ih =>
    rw [natChars]
    split
    · intro c hc
      simp only [List.mem_singleton] at hc
      subst hc
      exact isDigitCh_digitChar n
    · intro c hc
      rcases List.mem_append.mp hc with h1 | h2
      · exact ih (n / 10) (Nat.div_lt_self (by omega) (by omega)) c h1
      · simp only [List.mem_singleton] at h2
        subst h2
        exact isDigitCh_digitChar (n % 10)

theorem natChars_val (n : Nat) :
    ∀ acc, List.foldl (fun a d => a * 10 + d) acc ((natChars n).map digitVal) =
      acc * 10 ^ (natChars n).length + n := by
  induction n using Nat.strong_induction_on with
  | _ n ih =>
    intro acc
    by_cases h : n < 10
    · rw [natChars, dif_pos h]
      simp [digitVal_digitChar n h]
    · rw [natChars, dif_neg h]
      have hlt : n / 10 < n := Nat.div_lt_self (by omega) (by omega)
      rw [List.map_append, List.foldl_append, ih (n / 10) hlt acc]
      have hmod : n % 10 < 10 := Nat.mod_lt _ (by omega)
      simp only [List.map_cons, List.map_nil, List.foldl_cons, List.foldl_nil,
        List.length_append, List.length_cons, List.length_nil,
        digitVal_digitChar (n % 10) hmod]
      have key : ∀ K : Nat, (acc * K + n / 10) * 10 + n % 10 = acc * (K * 10) + n := by
        intro K
        have hdm : 10 * (n / 10) + n % 10 = n := Nat.div_add_mod n 10
        calc (acc * K + n / 10) * 10 + n % 10
            = acc * (K * 10) + (10 * (n / 10) + n % 10) := by ring
          _ = acc * (K * 10) + n := by rw [hdm]
      rw [pow_succ]
      exact key _

theorem takeDigits_notDigit (rest : List Char) (h : headDigit rest = false) :
    takeDigits rest = ([], rest) := by
  cases rest with
  | nil => rfl
  | cons c cs =>
    simp only [headDigit] at h
    simp [takeDigits, h]

theorem takeDigits_append (xs rest : List Char)
    (hxs : ∀ c ∈ xs, isDigitCh c = true) (hrest : headDigit rest = false) :
    takeDigits (xs ++ rest) = (xs.map digitVal, rest) := by
  induction xs with
  | nil => simpa using takeDigits_notDigit rest hrest
  | cons c cs ih =>
    have hc : isDigitCh c = true := hxs c (by simp)
    have ih2 := ih (fun x hx => hxs x (by simp [hx]))
    simp [takeDigits, hc, ih2]

theorem parseNat_natChars (n : Nat) (rest : List Char)
    (hrest : headDigit rest = false) :
    parseNat (natChars n ++ rest) = some (n, rest) := by
  have happ := takeDigits_append (natChars n) rest (natChars_digits n) hrest
  have hval : digitsVal ((natChars n).map digitVal) = n := by
    have h0 := natChars_val n 0
    simpa [digitsVal] using h0
  unfold parseNat
  rw [happ]
  simp only []
  rw [if_neg (by simp [natChars_ne_nil n]), hval]

theorem parseStrBody_flatten (l : List Char) (rest : List Char) :
    parseStrBody ((l.map escapeChar).flatten ++ (quoteChar :: rest)) =
      some (l, rest) := by
  induction l with
  | nil =>
    rw [List.map_nil, List.flatten_nil, List.nil_append, parseStrBody.eq_def]
    simp
  | cons c cs ih =>
    rw [List.map_cons, List.flatten_cons, List.append_assoc]
    by_cases hq : c = quoteChar
    · subst hq
      rw [escapeChar, if_pos rfl]
      rw [List.cons_append, List.cons_append, List.nil_append, parseStrBody.eq_def]
      simp only [if_neg (show ¬(backslashChar = quoteChar) by decide), if_pos rfl]
      rw [ih]
      simp
    · by_cases hb : c = backslashChar
      · subst hb
        rw [escapeChar, if_neg (by decide), if_pos rfl]
        rw [List.cons_append, List.cons_append, List.nil_append, parseStrBody.eq_def]
        simp only [if_neg (show ¬(backslashChar = quoteChar) by decide), if_pos rfl]
        rw [ih]
        simp
      · rw [escapeChar, if_neg hq, if_neg hb]
        rw [List.cons_append, List.nil_append, parseStrBody.eq_def]
        simp only [if_neg hq, if_neg hb]
        rw [ih]

theorem digit_guards (c : Char) (h : isDigitCh c = true) :
    ¬(c = 'n') ∧ ¬(c = 't') ∧ ¬(c = 'f') ∧ ¬(c = quoteChar) ∧ ¬(c = '[') ∧
      ¬(c = lbraceChar) ∧ ¬(c = '-') ∧ ¬(c = ']') ∧ ¬(c = rbraceChar) := by
  refine ⟨?_, ?_, ?_, ?_, ?_, ?_, ?_, ?_, ?_⟩ <;>
    (intro hc; subst hc; exact absurd h (by decide))

theorem encode_head_ne (v : Json) (rest : List Char) :
    ∃ c cs, encodeJson v ++ rest = c :: cs ∧ ¬(c = ']') ∧ ¬(c = rbraceChar) := by
  cases v with
  | null =>
    refine ⟨'n', ['u', 'l', 'l'] ++ rest, ?_, by decide, by decide⟩
    simp [encodeJson]
  | bool b =>
    cases b with
    | true =>
      refine ⟨'t', ['r', 'u', 'e'] ++ rest, ?_, by decide, by decide⟩
      simp [encodeJson]
    | false =>
      refine ⟨'f', ['a', 'l', 's', 'e'] ++ rest, ?_, by decide, by decide⟩
      simp [encodeJson]
  | num i =>
    by_cases hneg : i < 0
    · refine ⟨'-', natChars i.natAbs ++ rest, ?_, by decide, by decide⟩
      simp [encodeJson, intChars, hneg]
    · cases hnc : natChars i.natAbs with
      | nil => exact absurd hnc (natChars_ne_nil _)
      | cons c cs =>
        have hdig : isDigitCh c = true :=
          natChars_digits _ c (by rw [hnc]; exact List.mem_cons_self _ _)
        obtain ⟨-, -, -, -, -, -, -, h8, h9⟩ := digit_guards c hdig
        refine ⟨c, cs ++ rest, ?_, h8, h9⟩
        simp [encodeJson, intChars, hneg, hnc]
  | str s =>
    refine ⟨quoteChar, ((s.data.map escapeChar).flatten ++ [quoteChar]) ++ rest, ?_,
      by decide, by decide⟩
    simp [encodeJson, encodeString]
  | arr xs =>
    refine ⟨'[', (encodeList xs ++ [']']) ++ rest, ?_, by decide, by decide⟩
    simp [encodeJson]
  | obj kvs =>
    refine ⟨lbraceChar, (encodeObj kvs ++ [rbraceChar]) ++ rest, ?_, by decide, by decide⟩
    simp [encodeJson]

mutual
/-- Parsing is a left inverse of encoding for single values, given enough
fuel and a continuation that does not begin with a digit. -/
theorem parseVal_encode : ∀ (v : Json) (fuel : Nat) (rest : List Char),
    needV v ≤ fuel → headDigit rest = false →
    parseVal fuel (encodeJson v ++ rest) = some (v, rest)
| .null => fun fuel rest hf _hr => by
  cases fuel with
  | zero => simp only [needV] at hf; omega
  | succ f =>
    have henc : encodeJson Json.null ++ rest = 'n' :: 'u' :: 'l' :: 'l' :: rest := by
      simp [encodeJson]
    rw [henc, parseVal.eq_def]
    simp
| .bool b => fun fuel rest hf _hr => by
  cases fuel with
  | zero => simp only [needV] at hf; omega
  | succ f =>
    cases b with
    | true =>
      have henc : encodeJson (Json.bool true) ++ rest = 't' :: 'r' :: 'u' :: 'e' :: rest := by
        simp [encodeJson]
      rw [henc, parseVal.eq_def]
      simp
    | false =>
      have henc : encodeJson (Json.bool false) ++ rest =
          'f' :: 'a' :: 'l' :: 's' :: 'e' :: rest := by
        simp [encodeJson]
      rw [henc, parseVal.eq_def]
      simp
| .num i => fun fuel rest hf hr => by
  cases fuel with
  | zero => simp only [needV] at hf; omega
  | succ f =>
    by_cases hneg : i < 0
    · have henc : encodeJson (Json.num i) ++ rest = '-' :: (natChars i.natAbs ++ rest) := by
        simp [encodeJson, intChars, hneg]
      have hpn := parseNat_natChars i.natAbs rest hr
      have habs : -((i.natAbs : Int)) = i := by omega
      rw [henc, parseVal.eq_def]
      simp [show ¬('-' = quoteChar) from by decide, show ¬('-' = lbraceChar) from by decide,
        hpn]
      rw [abs_of_neg hneg, neg_neg]
    · have henc : encodeJson (Json.num i) ++ rest = natChars i.natAbs ++ rest := by
        simp [encodeJson, intChars, hneg]
      cases hnc : natChars i.natAbs with
      | nil => exact absurd hnc (natChars_ne_nil _)
      | cons c cs =>
        have hdig : isDigitCh c = true :=
          natChars_digits _ c (by rw [hnc]; exact List.mem_cons_self _ _)
        obtain ⟨g1, g2, g3, g4, g5, g6, g7, -, -⟩ := digit_guards c hdig
        have hpn : parseNat (c :: (cs ++ rest)) = some (i.natAbs, rest) := by
          have h0 := parseNat_natChars i.natAbs rest hr
          rw [hnc] at h0
          simpa using h0
        have habs : ((i.natAbs : Int)) = i := by omega
        rw [henc, hnc, List.cons_append, parseVal.eq_def]
        simp [g1, g2, g3, g4, g5, g6, g7, hdig, hpn, habs]
| .str s => fun fuel rest hf _hr => by
  cases fuel with
  | zero => simp only [needV] at hf; omega
  | succ f =>
    have henc : encodeJson (Json.str s) ++ rest =
        quoteChar :: ((s.data.map escapeChar).flatten ++ (quoteChar :: rest)) := by
      simp [encodeJson, encodeString]
    have hsb := parseStrBody_flatten s.data rest
    rw [henc, parseVal.eq_def]
    simp [show ¬(quoteChar = 'n') from by decide, show ¬(quoteChar = 't') from by decide,
      show ¬(quoteChar = 'f') from by decide, hsb,
      show String.mk s.data = s from rfl]
| .arr xs => fun fuel rest hf _hr => by
  cases fuel with
  | zero => simp only [needV] at hf; omega
  | succ f =>
    have henc : encodeJson (Json.arr xs) ++ rest = '[' :: (encodeList xs ++ (']' :: rest)) := by
      simp [encodeJson]
    have hel := parseElems_encode xs f rest (by simp only [needV] at hf; omega)
    rw [henc, parseVal.eq_def]
    simp [show ¬('[' = quoteChar) from by decide, show ¬('[' = lbraceChar) from by decide, hel]
| .obj kvs => fun fuel rest hf _hr => by
  cases fuel with
  | zero => simp only [needV] at hf; omega
  | succ f =>
    have henc : encodeJson (Json.obj kvs) ++ rest =
        lbraceChar :: (encodeObj kvs ++ (rbraceChar :: rest)) := by
      simp [encodeJson]
    have hm := parseMembers_encode kvs f rest (by simp only [needV] at hf; omega)
    rw [henc, parseVal.eq_def]
    simp [show ¬(lbraceChar = 'n') from by decide, show ¬(lbraceChar = 't') from by decide,
      show ¬(lbraceChar = 'f') from by decide, show ¬(lbraceChar = quoteChar) from by decide,
      show ¬(lbraceChar = '[') from by decide, hm]

/-- Parsing is a left inverse of encoding for array element lists. -/
theorem parseElems_encode : ∀ (xs : JsonList) (fuel : Nat) (rest : List Char),
    needL xs ≤ fuel →
    parseElems fuel (encodeList xs ++ (']' :: rest)) = some (xs, rest)
| .nil => fun fuel rest hf => by
  cases fuel with
  | zero => simp only [needL] at hf; omega
  | succ f =>
    have henc : encodeList JsonList.nil ++ (']' :: rest) = ']' :: rest := by
      simp [encodeList]
    rw [henc, parseElems.eq_def]
    simp
| .cons v tl => fun fuel rest hf => by
  cases fuel with
  | zero => simp only [needL] at hf; omega
  | succ f =>
    have hfv : needV v ≤ f := by simp only [needL] at hf; omega
    cases tl with
    | nil =>
      have henc : encodeList (JsonList.cons v JsonList.nil) ++ (']' :: rest) =
          encodeJson v ++ (']' :: rest) := by
        simp [encodeList]
      obtain ⟨c, cs, hcons, hnb, hnr⟩ := encode_head_ne v (']' :: rest)
      have hv : parseVal f (c :: cs) = some (v, ']' :: rest) := by
        rw [← hcons]
        exact parseVal_encode v f (']' :: rest) hfv (by simp only [headDigit]; decide)
      rw [henc, hcons, parseElems.eq_def]
      simp [hnb, hv]
    | cons v2 tl2 =>
      have hft : needL (JsonList.cons v2 tl2) ≤ f := by simp only [needL] at hf ⊢; omega
      have henc : encodeList (JsonList.cons v (JsonList.cons v2 tl2)) ++ (']' :: rest) =
          encodeJson v ++ (',' :: (encodeList (JsonList.cons v2 tl2) ++ (']' :: rest))) := by
        simp [encodeList]
      obtain ⟨c, cs, hcons, hnb, hnr⟩ :=
        encode_head_ne v (',' :: (encodeList (JsonList.cons v2 tl2) ++ (']' :: rest)))
      have hv : parseVal f (c :: cs) =
          some (v, ',' :: (encodeList (JsonList.cons v2 tl2) ++ (']' :: rest))) := by
        rw [← hcons]
        exact parseVal_encode v f _ hfv (by simp only [headDigit]; decide)
      have hel := parseElems_encode (JsonList.cons v2 tl2) f rest hft
      rw [henc, hcons, parseElems.eq_def]
      simp [hnb, hv, hel]

/-- Parsing is a left inverse of encoding for object member lists. -/
theorem parseMembers_encode : ∀ (kvs : JsonObj) (fuel : Nat) (rest : List Char),
    needO kvs ≤ fuel →
    parseMembers fuel (encodeObj kvs ++ (rbraceChar :: rest)) = some (kvs, rest)
| .nil => fun fuel rest hf => by
  cases fuel with
  | zero => simp only [needO] at hf; omega
  | succ f =>
    have henc : encodeObj JsonObj.nil ++ (rbraceChar :: rest) = rbraceChar :: rest := by
      simp [encodeObj]
    rw [henc, parseMembers.eq_def]
    simp
| .cons k v tl => fun fuel rest hf => by
  cases fuel with
  | zero => simp only [needO] at hf; omega
  | succ f =>
    have hfv : needV v ≤ f := by simp only [needO] at hf; omega
    cases tl with
    | nil =>
      have henc : encodeObj (JsonObj.cons k v JsonObj.nil) ++ (rbraceChar :: rest) =
          quoteChar :: ((k.data.map escapeChar).flatten ++
            (quoteChar :: (':' :: (encodeJson v ++ (rbraceChar :: rest))))) := by
        simp [encodeObj, encodeString]
      have hsb := parseStrBody_flatten k.data (':' :: (encodeJson v ++ (rbraceChar :: rest)))
      have hv := parseVal_encode v f (rbraceChar :: rest) hfv
        (by simp only [headDigit]; decide)
      rw [henc, parseMembers.eq_def]
      simp [show ¬(quoteChar = rbraceChar) from by decide, hsb, hv,
        show ¬(rbraceChar = ',') from by decide, show String.mk k.data = k from rfl]
    | cons k2 v2 tl2 =>
      have hft : needO (JsonObj.cons k2 v2 tl2) ≤ f := by simp only [needO] at hf ⊢; omega
      have henc : encodeObj (JsonObj.cons k v (JsonObj.cons k2 v2 tl2)) ++
              (rbraceChar :: rest) =
          quoteChar :: ((k.data.map escapeChar).flatten ++
            (quoteChar :: (':' :: (encodeJson v ++
              (',' :: (encodeObj (JsonObj.cons k2 v2 tl2) ++ (rbraceChar :: rest))))))) := by
        simp [encodeObj, encodeString]
      have hsb := parseStrBody_flatten k.data
        (':' :: (encodeJson v ++ (',' :: (encodeObj (JsonObj.cons k2 v2 tl2) ++
          (rbraceChar :: rest)))))
      have hv := parseVal_encode v f
        (',' :: (encodeObj (JsonObj.cons k2 v2 tl2) ++ (rbraceChar :: rest))) hfv
        (by simp only [headDigit]; decide)
      have hm := parseMembers_encode (JsonObj.cons k2 v2 tl2) f rest hft
      rw [henc, parseMembers.eq_def]
      simp [show ¬(quoteChar = rbraceChar) from by decide, hsb, hv, hm,
        show String.mk k.data = k from rfl]
end

mutual
/-- The fuel needed by the parser is at most twice the encoding length. -/
theorem needV_le : ∀ v : Json, needV v ≤ 2 * (encodeJson v).length
| .null => by simp [needV, encodeJson]
| .bool b => by cases b <;> simp [needV, encodeJson]
| .num i => by
  have h2 : 1 ≤ (natChars i.natAbs).length := by
    cases hnc : natChars i.natAbs with
    | nil => exact absurd hnc (natChars_ne_nil _)
    | cons c cs => simp
  simp only [needV, encodeJson, intChars]
  split
  · simp
    omega
  · omega
| .str s => by
  simp [needV, encodeJson, encodeString]
  omega
| .arr xs => by
  have h := needL_le xs
  simp only [needV, encodeJson, List.length_cons, List.length_append,
    List.length_singleton]
  omega
| .obj kvs => by
  have h := needO_le kvs
  simp only [needV, encodeJson, List.length_cons, List.length_append,
    List.length_singleton]
  omega

/-- Fuel bound for element lists. -/
theorem needL_le : ∀ xs : JsonList, needL xs ≤ 2 * (encodeList xs).length + 2
| .nil => by simp [needL, encodeList]
| .cons v tl => by
  cases tl with
  | nil =>
    have hv := needV_le v
    simp only [needL, encodeList]
    omega
  | cons v2 tl2 =>
    have hv := needV_le v
    have ht := needL_le (JsonList.cons v2 tl2)
    simp only [needL, encodeList, List.length_append, List.length_cons] at ht ⊢
    omega

/-- Fuel bound for member lists. -/
theorem needO_le : ∀ kvs : JsonObj, needO kvs ≤ 2 * (encodeObj kvs).length + 2
| .nil => by simp [needO, encodeObj]
| .cons k v tl => by
  cases tl with
  | nil =>
    have hv := needV_le v
    simp only [needO, encodeObj, List.length_append, List.length_cons]
    omega
  | cons k2 v2 tl2 =>
    have hv := needV_le v
    have ht := needO_le (JsonObj.cons k2 v2 tl2)
    simp only [needO, encodeObj, List.length_append, List.length_cons] at ht ⊢
    omega
end

/-- Parsing a complete encoded document recovers the value. -/
theorem parseJson_encode (v : Json) : parseJson (encodeJson v) = some v := by
  have hb := needV_le v
  have h := parseVal_encode v (2 * (encodeJson v).length + 2) [] (by omega)
    (by simp [headDigit])
  rw [List.append_nil] at h
  unfold parseJson
  rw [h]

/-! ## Client operation lemmas -/

theorem createEntity_none (c : ArkivClient) (h : c.walletClient = none)
    (opts : CreateArkivEntityOptions) :
    c.createEntity opts = ({ success := false, error := some walletNotInitializedMsg }, []) := by
  simp [ArkivClient.createEntity, h]

theorem createEntity_ok (c : ArkivClient) (w : WalletClient) (h : c.walletClient = some w)
    (opts : CreateArkivEntityOptions) (resp : CreateResponse)
    (hr : w.createEntity (createReq opts) = .ok resp) :
    c.createEntity opts =
      ({ success := true, entityKey := some resp.entityKey,
         txHash := some resp.txHash }, [.create (createReq opts)]) := by
  simp [ArkivClient.createEntity, h, hr]

theorem createEntity_err (c : ArkivClient) (w : WalletClient) (h : c.walletClient = some w)
    (opts : CreateArkivEntityOptions) (msg : String)
    (hr : w.createEntity (createReq opts) = .error msg) :
    c.createEntity opts =
      ({ success := false, error := some msg }, [.create (createReq opts)]) := by
  simp [ArkivClient.createEntity, h, hr]

theorem updateEntity_none (c : ArkivClient) (h : c.walletClient = none)
    (opts : UpdateArkivEntityOptions) :
    c.updateEntity opts = ({ success := false, error := some walletNotInitializedMsg }, []) := by
  simp [ArkivClient.updateEntity, h]

theorem updateEntity_ok (c : ArkivClient) (w : WalletClient) (h : c.walletClient = some w)
    (opts : UpdateArkivEntityOptions) (resp : TxResponse)
    (hr : w.updateEntity (updateReq opts) = .ok resp) :
    c.updateEntity opts =
      ({ success := true, entityKey := some opts.entityKey,
         txHash := some resp.txHash }, [.update (updateReq opts)]) := by
  simp [ArkivClient.updateEntity, h, hr]

theorem updateEntity_err (c : ArkivClient) (w : WalletClient) (h : c.walletClient = some w)
    (opts : UpdateArkivEntityOptions) (msg : String)
    (hr : w.updateEntity (updateReq opts) = .error msg) :
    c.updateEntity opts =
      ({ success := false, error := some msg }, [.update (updateReq opts)]) := by
  simp [ArkivClient.updateEntity, h, hr]

theorem deleteEntity_none (c : ArkivClient) (h : c.walletClient = none) (key : String) :
    c.deleteEntity key = ({ success := false, error := some walletNotInitializedMsg }, []) := by
  simp [ArkivClient.deleteEntity, h]

theorem deleteEntity_ok (c : ArkivClient) (w : WalletClient) (h : c.walletClient = some w)
    (key : String) (resp : TxResponse) (hr : w.deleteEntity key = .ok resp) :
    c.deleteEntity key =
      ({ success := true, entityKey := some key,
         txHash := some resp.txHash }, [.delete key]) := by
  simp [ArkivClient.deleteEntity, h, hr]

theorem deleteEntity_err (c : ArkivClient) (w : WalletClient) (h : c.walletClient = some w)
    (key : String) (msg : String) (hr : w.deleteEntity key = .error msg) :
    c.deleteEntity key = ({ success := false, error := some msg }, [.delete key]) := by
  simp [ArkivClient.deleteEntity, h, hr]

theorem mkArkivClient_none (cfg : ArkivConfig) (wallet : WalletClient) (pub : PublicClient)
    (h : cfg.privateKey = none) : (mkArkivClient cfg wallet pub).walletClient = none := by
  simp [mkArkivClient, h]

theorem foldl_whereFilter (fs : List ArkivQueryFilter) (b : QueryBuilder) :
    (fs.foldl (fun (b : QueryBuilder) f => b.whereFilter (applyFilter f)) b).filters =
      b.filters ++ fs.map applyFilter := by
  induction fs generalizing b with
  | nil => simp
  | cons f tl ih =>
    rw [List.foldl_cons, ih]
    simp [QueryBuilder.whereFilter]

theorem foldl_whereFilter_limitN (fs : List ArkivQueryFilter) (b : QueryBuilder) :
    (fs.foldl (fun (b : QueryBuilder) f => b.whereFilter (applyFilter f)) b).limitN =
      b.limitN := by
  induction fs generalizing b with
  | nil => simp
  | cons f tl ih =>
    rw [List.foldl_cons, ih]
    simp [QueryBuilder.whereFilter]

theorem buildChain_spec (opts : Option ArkivQueryOptions) :
    (buildChain opts).filters =
      ((opts.getD emptyQueryOptions).filters.getD []).map applyFilter ∧
    (buildChain opts).includeAttributes =
      ((opts.getD emptyQueryOptions).withAttributes.getD false) ∧
    (buildChain opts).includePayload =
      ((opts.getD emptyQueryOptions).withPayload.getD false) ∧
    (buildChain opts).limitN = (opts.getD emptyQueryOptions).limit := by
  unfold buildChain
  cases hlim : (opts.getD emptyQueryOptions).limit with
  | none =>
    simp [QueryBuilder.withAttributes, QueryBuilder.withPayload, QueryBuilder.limit,
      foldl_whereFilter, foldl_whereFilter_limitN, hlim]
  | some n =>
    simp [QueryBuilder.withAttributes, QueryBuilder.withPayload, QueryBuilder.limit,
      foldl_whereFilter, foldl_whereFilter_limitN, hlim]

theorem runSubscription_false (l : List SubEvent) : runSubscription false l = [] := by
  induction l with
  | nil => simp [runSubscription]
  | cons e tl ih =>
    cases e with
    | created r => simp [runSubscription, ih]
    | unsub => simp [runSubscription, ih]

theorem runSubscription_unsub (a : Bool) (pre post : List SubEvent) :
    runSubscription a (pre ++ (SubEvent.unsub :: post)) =
      runSubscription a (pre ++ [SubEvent.unsub]) := by
  induction pre generalizing a with
  | nil =>
    simp [runSubscription, runSubscription_false]
  | cons e tl ih =>
    cases e with
    | created r =>
      cases a with
      | true => simp [runSubscription, ih]
      | false => simp [runSubscription, ih]
    | unsub => simp [runSubscription, ih]

/-! ## Claims -/

/-- C1: for every write operation (createEntity, updateEntity,
deleteEntity) on a client constructed without a credential (no
privateKey), the call returns success = false with the fixed error
"Wallet client not initialized" immediately, and issues no network call
(the call trace is empty). -/
theorem c1_write_gate (cfg : ArkivConfig) (wallet : WalletClient) (pub : PublicClient)
    (hnone : cfg.privateKey = none) (copts : CreateArkivEntityOptions)
    (uopts : UpdateArkivEntityOptions) (key : String) :
    (mkArkivClient cfg wallet pub).createEntity copts =
      ({ success := false, error := some walletNotInitializedMsg }, []) ∧
    (mkArkivClient cfg wallet pub).updateEntity uopts =
      ({ success := false, error := some walletNotInitializedMsg }, []) ∧
    (mkArkivClient cfg wallet pub).deleteEntity key =
      ({ success := false, error := some walletNotInitializedMsg }, []) := by
  have hwc := mkArkivClient_none cfg wallet pub hnone
  exact ⟨createEntity_none _ hwc copts, updateEntity_none _ hwc uopts,
    deleteEntity_none _ hwc key⟩

/-- Witness for C1 at the read-only configuration of the tests. -/
theorem c1_write_gate_witness :
    (mkArkivClient roConfig mockWallet mockPublic).createEntity { payload := Json.null } =
      ({ success := false, error := some walletNotInitializedMsg }, []) ∧
    (mkArkivClient roConfig mockWallet mockPublic).updateEntity
        { entityKey := "0x1234567890abcdef", payload := Json.null } =
      ({ success := false, error := some walletNotInitializedMsg }, []) ∧
    (mkArkivClient roConfig mockWallet mockPublic).deleteEntity "0x1234567890abcdef" =
      ({ success := false, error := some walletNotInitializedMsg }, []) :=
  c1_write_gate roConfig mockWallet mockPublic rfl { payload := Json.null }
    { entityKey := "0x1234567890abcdef", payload := Json.null } "0x1234567890abcdef"

/-- C2: every write operation resolves to a discriminated Result value for
every input and every transport behaviour (success with no error, or
failure carrying an error), never an exception; and any transport failure
is surfaced as success = false with the transport message. -/
theorem c2_writes_never_throw (c : ArkivClient) (copts : CreateArkivEntityOptions)
    (uopts : UpdateArkivEntityOptions) (key : String) :
    (((c.createEntity copts).1.success = true ∧ (c.createEntity copts).1.error = none) ∨
      ((c.createEntity copts).1.success = false ∧
        ((c.createEntity copts).1.error).isSome = true)) ∧
    (((c.updateEntity uopts).1.success = true ∧ (c.updateEntity uopts).1.error = none) ∨
      ((c.updateEntity uopts).1.success = false ∧
        ((c.updateEntity uopts).1.error).isSome = true)) ∧
    (((c.deleteEntity key).1.success = true ∧ (c.deleteEntity key).1.error = none) ∨
      ((c.deleteEntity key).1.success = false ∧
        ((c.deleteEntity key).1.error).isSome = true)) ∧
    (∀ w msg, c.walletClient = some w → w.createEntity (createReq copts) = .error msg →
      (c.createEntity copts).1 = { success := false, error := some msg }) ∧
    (∀ w msg, c.walletClient = some w → w.updateEntity (updateReq uopts) = .error msg →
      (c.updateEntity uopts).1 = { success := false, error := some msg }) ∧
    (∀ w msg, c.walletClient = some w → w.deleteEntity key = .error msg →
      (c.deleteEntity key).1 = { success := false, error := some msg }) := by
  refine ⟨?_, ?_, ?_, ?_, ?_, ?_⟩
  · cases hwc : c.walletClient with
    | none => right; rw [createEntity_none c hwc copts]; simp
    | some w =>
      cases hres : w.createEntity (createReq copts) with
      | ok resp => left; rw [createEntity_ok c w hwc copts resp hres]; simp
      | error msg => right; rw [createEntity_err c w hwc copts msg hres]; simp
  · cases hwc : c.walletClient with
    | none => right; rw [updateEntity_none c hwc uopts]; simp
    | some w =>
      cases hres : w.updateEntity (updateReq uopts) with
      | ok resp => left; rw [updateEntity_ok c w hwc uopts resp hres]; simp
      | error msg => right; rw [updateEntity_err c w hwc uopts msg hres]; simp
  · cases hwc : c.walletClient with
    | none => right; rw [deleteEntity_none c hwc key]; simp
    | some w =>
      cases hres : w.deleteEntity key with
      | ok resp => left; rw [deleteEntity_ok c w hwc key resp hres]; simp
      | error msg => right; rw [deleteEntity_err c w hwc key msg hres]; simp
  · intro w msg hwc hres
    rw [createEntity_err c w hwc copts msg hres]
  · intro w msg hwc hres
    rw [updateEntity_err c w hwc uopts msg hres]
  · intro w msg hwc hres
    rw [deleteEntity_err c w hwc key msg hres]

/-- Witness for C2: a transport that throws is surfaced as a failure
result with the thrown message. -/
theorem c2_writes_never_throw_witness :
    ((mkArkivClient rwConfig (failingWallet "boom") mockPublic).createEntity
        { payload := Json.null }).1 = { success := false, error := some "boom" } :=
  (c2_writes_never_throw (mkArkivClient rwConfig (failingWallet "boom") mockPublic)
      { payload := Json.null }
      { entityKey := "0x1234567890abcdef", payload := Json.null }
      "0x1234567890abcdef").2.2.2.1 (failingWallet "boom") "boom" rfl rfl

/-- C3: for every payload value, decoding the encoded form under the JSON
content type (given explicitly or by default) yields the original value:
decode(encode(P)) = P. -/
theorem c3_decode_encode_roundtrip (v : Json) :
    decodePayload (some jsonContentType) (encodeJson v) = Decoded.json v ∧
    decodePayload none (encodeJson v) = Decoded.json v := by
  have h := parseJson_encode v
  constructor <;> simp [decodePayload, h]

/-- C4: for every write operation and input, a result with success = false
carries a present, non-empty error string — the capability error is the
fixed non-empty message, and transport failures are assumed to carry
non-empty messages across the collaborator boundary. -/
theorem c4_error_nonempty (c : ArkivClient)
    (hmsg : ∀ w, c.walletClient = some w →
      (∀ req msg, w.createEntity req = .error msg → msg ≠ "") ∧
      (∀ req msg, w.updateEntity req = .error msg → msg ≠ "") ∧
      (∀ k msg, w.deleteEntity k = .error msg → msg ≠ ""))
    (copts : CreateArkivEntityOptions) (uopts : UpdateArkivEntityOptions)
    (key : String) :
    ((c.createEntity copts).1.success = false →
      ∃ s, (c.createEntity copts).1.error = some s ∧ s ≠ "") ∧
    ((c.updateEntity uopts).1.success = false →
      ∃ s, (c.updateEntity uopts).1.error = some s ∧ s ≠ "") ∧
    ((c.deleteEntity key).1.success = false →
      ∃ s, (c.deleteEntity key).1.error = some s ∧ s ≠ "") := by
  have hmsgne : walletNotInitializedMsg ≠ "" := by decide
  refine ⟨?_, ?_, ?_⟩
  · cases hwc : c.walletClient with
    | none =>
      rw [createEntity_none c hwc copts]
      exact fun _ => ⟨walletNotInitializedMsg, rfl, hmsgne⟩
    | some w =>
      cases hres : w.createEntity (createReq copts) with
      | ok resp =>
        rw [createEntity_ok c w hwc copts resp hres]
        intro hfalse
        simp at hfalse
      | error msg =>
        rw [createEntity_err c w hwc copts msg hres]
        exact fun _ => ⟨msg, rfl, (hmsg w hwc).1 _ msg hres⟩
  · cases hwc : c.walletClient with
    | none =>
      rw [updateEntity_none c hwc uopts]
      exact fun _ => ⟨walletNotInitializedMsg, rfl, hmsgne⟩
    | some w =>
      cases hres : w.updateEntity (updateReq uopts) with
      | ok resp =>
        rw [updateEntity_ok c w hwc uopts resp hres]
        intro hfalse
        simp at hfalse
      | error msg =>
        rw [updateEntity_err c w hwc uopts msg hres]
        exact fun _ => ⟨msg, rfl, (hmsg w hwc).2.1 _ msg hres⟩
  · cases hwc : c.walletClient with
    | none =>
      rw [deleteEntity_none c hwc key]
      exact fun _ => ⟨walletNotInitializedMsg, rfl, hmsgne⟩
    | some w =>
      cases hres : w.deleteEntity key with
      | ok resp =>
        rw [deleteEntity_ok c w hwc key resp hres]
        intro hfalse
        simp at hfalse
      | error msg =>
        rw [deleteEntity_err c w hwc key msg hres]
        exact fun _ => ⟨msg, rfl, (hmsg w hwc).2.2 _ msg hres⟩

/-- Witness for C4 on the read-only client: the gated failure carries the
non-empty capability message. -/
theorem c4_error_nonempty_witness :
    ∃ s, ((mkArkivClient roConfig mockWallet mockPublic).createEntity
      { payload := Json.null }).1.error = some s ∧ s ≠ "" :=
  (c4_error_nonempty (mkArkivClient roConfig mockWallet mockPublic)
      (fun w h => absurd h (by simp [mkArkivClient, roConfig]))
      { payload := Json.null }
      { entityKey := "0x1234567890abcdef", payload := Json.null }
      "0x1234567890abcdef").1 rfl

/-- C5: with a credential present, when the write handle's create call
succeeds, createEntity returns success = true with exactly the non-empty
entityKey and txHash taken from the transport response. -/
theorem c5_create_success (c : ArkivClient) (w : WalletClient)
    (hw : c.walletClient = some w) (copts : CreateArkivEntityOptions)
    (resp : CreateResponse) (hok : w.createEntity (createReq copts) = .ok resp)
    (hek : resp.entityKey ≠ "") (hth : resp.txHash ≠ "") :
    (c.createEntity copts).1.success = true ∧
    (c.createEntity copts).1.entityKey = some resp.entityKey ∧
    (c.createEntity copts).1.txHash = some resp.txHash ∧
    (∃ ek, (c.createEntity copts).1.entityKey = some ek ∧ ek ≠ "") ∧
    (∃ th, (c.createEntity copts).1.txHash = some th ∧ th ≠ "") := by
  rw [createEntity_ok c w hw copts resp hok]
  exact ⟨rfl, rfl, rfl, ⟨resp.entityKey, rfl, hek⟩, ⟨resp.txHash, rfl, hth⟩⟩

/-- Witness for C5 at the test fixture. -/
theorem c5_create_success_witness :
    ((mkArkivClient rwConfig mockWallet mockPublic).createEntity
        { payload := Json.null }).1.entityKey = some "0x1234567890abcdef" ∧
    ((mkArkivClient rwConfig mockWallet mockPublic).createEntity
        { payload := Json.null }).1.txHash = some "0xabcdef1234567890" ∧
    ((mkArkivClient rwConfig mockWallet mockPublic).createEntity
        { payload := Json.null }).1.success = true := by
  have h := c5_create_success (mkArkivClient rwConfig mockWallet mockPublic) mockWallet rfl
    { payload := Json.null } ⟨"0x1234567890abcdef", "0xabcdef1234567890"⟩ rfl
    (by decide) (by decide)
  exact ⟨h.2.1, h.2.2.1, h.1⟩

/-- C6: successful update and delete results carry as entityKey the
caller-supplied target key (the transport response for update and delete
carries only a txHash), together with that txHash. -/
theorem c6_update_delete_key (c : ArkivClient) (w : WalletClient)
    (hw : c.walletClient = some w) (uopts : UpdateArkivEntityOptions) (key : String)
    (uresp dresp : TxResponse) (hu : w.updateEntity (updateReq uopts) = .ok uresp)
    (hd : w.deleteEntity key = .ok dresp) :
    (c.updateEntity uopts).1 =
      { success := true, entityKey := some uopts.entityKey,
        txHash := some uresp.txHash } ∧
    (c.deleteEntity key).1 =
      { success := true, entityKey := some key, txHash := some dresp.txHash } := by
  rw [updateEntity_ok c w hw uopts uresp hu, deleteEntity_ok c w hw key dresp hd]
  exact ⟨rfl, rfl⟩

/-- Witness for C6 at the test fixture. -/
theorem c6_update_delete_key_witness :
    ((mkArkivClient rwConfig mockWallet mockPublic).updateEntity
        { entityKey := "0x1234567890abcdef", payload := Json.null }).1 =
      { success := true, entityKey := some "0x1234567890abcdef",
        txHash := some "0xabcdef1234567890" } ∧
    ((mkArkivClient rwConfig mockWallet mockPublic).deleteEntity
        "0x1234567890abcdef").1 =
      { success := true, entityKey := some "0x1234567890abcdef",
        txHash := some "0xabcdef1234567890" } :=
  c6_update_delete_key (mkArkivClient rwConfig mockWallet mockPublic) mockWallet rfl
    { entityKey := "0x1234567890abcdef", payload := Json.null } "0x1234567890abcdef"
    ⟨"0xabcdef1234567890"⟩ ⟨"0xabcdef1234567890"⟩ rfl rfl

/-- C7: query builds the chain from the options (filters in caller order,
inclusion flags, limit when given), executes exactly one fetch, and
returns the decoded entities of the first page only — irrespective of the
pagination flag or of any further pages the cursor would yield. -/
theorem c7_query_first_page (c : ArkivClient) (opts : Option ArkivQueryOptions)
    (page : FetchPage) (hf : c.publicClient.fetch (buildChain opts) = .ok page) :
    c.query opts = (.ok (page.entities.map decodeRawEntity), [buildChain opts]) ∧
    (buildChain opts).filters =
      ((opts.getD emptyQueryOptions).filters.getD []).map applyFilter ∧
    (buildChain opts).includeAttributes =
      ((opts.getD emptyQueryOptions).withAttributes.getD false) ∧
    (buildChain opts).includePayload =
      ((opts.getD emptyQueryOptions).withPayload.getD false) ∧
    (buildChain opts).limitN = (opts.getD emptyQueryOptions).limit := by
  refine ⟨?_, buildChain_spec opts⟩
  simp [ArkivClient.query, hf]

/-- Witness for C7: absent options on the mock store return the single
first-page entity, decoded, after one fetch. -/
theorem c7_query_first_page_witness :
    (mkArkivClient roConfig mockWallet mockPublic).query none =
      (.ok ([mockRawEntity].map decodeRawEntity), [buildChain none]) :=
  (c7_query_first_page (mkArkivClient roConfig mockWallet mockPublic) none
    ⟨[mockRawEntity], false, []⟩ rfl).1

/-- C8: each caller filter reaches the builder unmodified and in caller
order, with the operator defaulting to eq when omitted. -/
theorem c8_filters_passthrough (opts : Option ArkivQueryOptions) :
    (buildChain opts).filters =
      ((opts.getD emptyQueryOptions).filters.getD []).map
        (fun f => (f.key, f.value, f.operator.getD FilterOp.eq)) := by
  have h := (buildChain_spec opts).1
  simpa [applyFilter] using h

/-- C9: getEntity returns the decoded entity when the key exists, absence
when it does not (without throwing), and propagates hard transport errors
unchanged. -/
theorem c9_get_entity (c : ArkivClient) (key : String)
    (res : Except String (Option RawEntity)) (hres : c.publicClient.getEntity key = res) :
    c.getEntity key =
      match res with
      | .ok (some r) => .ok (some (decodeRawEntity r))
      | .ok none => .ok none
      | .error e => .error e := by
  cases res with
  | ok o =>
    cases o with
    | none => simp [ArkivClient.getEntity, hres]
    | some r => simp [ArkivClient.getEntity, hres]
  | error e => simp [ArkivClient.getEntity, hres]

/-- Witness for C9 at the test fixture: the mock store's entity is found
and decoded. -/
theorem c9_get_entity_witness :
    (mkArkivClient roConfig mockWallet mockPublic).getEntity "0x1234567890abcdef" =
      .ok (some (decodeRawEntity mockRawEntity)) :=
  c9_get_entity (mkArkivClient roConfig mockWallet mockPublic) "0x1234567890abcdef"
    (.ok (some mockRawEntity)) rfl

/-- C10: once the unsubscribe event has occurred the callback is never
invoked again for any subsequently created entity, and a further
unsubscribe is a safe no-op (idempotent). -/
theorem c10_unsubscribe (pre post : List SubEvent) :
    runSubscription false post = [] ∧
    subscribeCallbacks (pre ++ (SubEvent.unsub :: post)) =
      subscribeCallbacks (pre ++ [SubEvent.unsub]) ∧
    subscribeCallbacks (pre ++ (SubEvent.unsub :: (SubEvent.unsub :: post))) =
      subscribeCallbacks (pre ++ (SubEvent.unsub :: post)) := by
  refine ⟨runSubscription_false post, runSubscription_unsub true pre post, ?_⟩
  calc subscribeCallbacks (pre ++ (SubEvent.unsub :: (SubEvent.unsub :: post)))
      = subscribeCallbacks (pre ++ [SubEvent.unsub]) :=
        runSubscription_unsub true pre (SubEvent.unsub :: post)
    _ = subscribeCallbacks (pre ++ (SubEvent.unsub :: post)) :=
        (runSubscription_unsub true pre post).symm
